import Mathlib

/-!
Verification of the NeuroGrid energy-balancing module
(`src/neurogrid/energy_balancing.py`) of the resilia-grid project.

Shallow embedding conventions:
* Python floats are modelled as rationals (`ℚ`); every claim under check is
  about ordering, clamping and exact min/sum arithmetic, not rounding.
* Python `sorted` with a tuple key is a stable sort under the lexicographic
  order of the key; it is modelled by `List.insertionSort` (also stable) with
  the corresponding total preorder.
* The Python dictionaries `storage_units` / `consumers` iterate in insertion
  order and are keyed by `id`; they are modelled as lists whose elements a
  traversal visits once each in order.
* Forecast lookups (`get_forecast`) sum to a single number per timestamp;
  functions that only consume that sum take the summed value (or an abstract
  timestamp-indexed function) as a parameter.
* A Python statement that can raise is modelled with `Except String`.
-/

namespace ResiliaGrid

/-- `StorageType` enumeration of `energy_balancing.py`. -/
inductive StorageType where
  | BATTERY
  | HYDROGEN
  | THERMAL
  | MECHANICAL
  | VEHICLE
deriving DecidableEq, Repr

/-- Enumeration name, as Python's `unit.type.name` used in decisions. -/
def StorageType.name : StorageType → String
  | .BATTERY => "BATTERY"
  | .HYDROGEN => "HYDROGEN"
  | .THERMAL => "THERMAL"
  | .MECHANICAL => "MECHANICAL"
  | .VEHICLE => "VEHICLE"

/-- The `EnergyStorage` dataclass. `location` is collapsed to a pair of
rationals and `temperature` kept; neither is read by any algorithm below. -/
structure EnergyStorage where
  id : String
  type : StorageType
  capacity : ℚ
  current_level : ℚ
  max_charge_rate : ℚ
  max_discharge_rate : ℚ
  efficiency : ℚ
  priority : ℤ
  location : ℚ × ℚ
  temperature : ℚ
deriving DecidableEq, Repr

/-- `EnergyStorage.available_capacity`: `capacity - current_level`. -/
def EnergyStorage.available_capacity (s : EnergyStorage) : ℚ :=
  s.capacity - s.current_level

/-- `EnergyStorage.state_of_charge`: `(current_level / capacity) * 100`.
In Python this raises `ZeroDivisionError` when `capacity = 0`; in `ℚ`
division by zero yields 0 instead, so any claim relying on this value must
separately establish `capacity ≠ 0` (claim C9 does exactly that). -/
def EnergyStorage.state_of_charge (s : EnergyStorage) : ℚ :=
  (s.current_level / s.capacity) * 100

/-- State change of `EnergyStorage.charge` together with its return value:
`actual_amount = min(amount, available_capacity)` is added to
`current_level` and returned.  The inline logging is ignored here; see
`EnergyStorage.chargeRun` for the raising behaviour it introduces. -/
def EnergyStorage.charge (s : EnergyStorage) (amount : ℚ) :
    EnergyStorage × ℚ :=
  let actual_amount := min amount s.available_capacity
  ({ s with current_level := s.current_level + actual_amount }, actual_amount)

/-- State change of `EnergyStorage.discharge` together with its return value:
`actual_amount = min(amount, current_level)` is subtracted from
`current_level` and returned.  Logging ignored; see `dischargeRun`. -/
def EnergyStorage.discharge (s : EnergyStorage) (amount : ℚ) :
    EnergyStorage × ℚ :=
  let actual_amount := min amount s.current_level
  ({ s with current_level := s.current_level - actual_amount }, actual_amount)

/-- `EnergyStorage.charge` as actually executed: after mutating
`current_level` it formats a log message that evaluates
`self.state_of_charge`, whose division `current_level / capacity` raises
`ZeroDivisionError` in Python when `capacity = 0`.  The error case therefore
fires exactly when `capacity = 0` (the mutation has already happened at that
point, but the call does not return normally). -/
def EnergyStorage.chargeRun (s : EnergyStorage) (amount : ℚ) :
    Except String (EnergyStorage × ℚ) :=
  let r := s.charge amount
  if s.capacity = 0 then .error "ZeroDivisionError: float division by zero"
  else .ok r

/-- `EnergyStorage.discharge` as actually executed, with the same
`state_of_charge` log evaluation raising when `capacity = 0`. -/
def EnergyStorage.dischargeRun (s : EnergyStorage) (amount : ℚ) :
    Except String (EnergyStorage × ℚ) :=
  let r := s.discharge amount
  if s.capacity = 0 then .error "ZeroDivisionError: float division by zero"
  else .ok r

/-- One abstract call against a storage unit: either `charge a` or
`discharge a` for some requested amount `a`. -/
inductive StorageOp where
  | charge (a : ℚ)
  | discharge (a : ℚ)
deriving DecidableEq, Repr

/-- Requested amount of a `StorageOp`. -/
def StorageOp.amount : StorageOp → ℚ
  | .charge a => a
  | .discharge a => a

/-- Apply one `StorageOp` to a unit, keeping only the resulting state. -/
def EnergyStorage.applyOp (s : EnergyStorage) : StorageOp → EnergyStorage
  | .charge a => (s.charge a).1
  | .discharge a => (s.discharge a).1

/-- Apply a sequence of charge/discharge calls, left to right. -/
def EnergyStorage.applyOps (s : EnergyStorage) (ops : List StorageOp) :
    EnergyStorage :=
  ops.foldl EnergyStorage.applyOp s

/-- The `Consumer` dataclass (fields read by the balancing engine; the
forecast map only feeds `get_forecast`, which is abstracted away where the
claims need it). -/
structure Consumer where
  id : String
  type : String
  peak_demand : ℚ
  current_demand : ℚ
  flexibility : ℚ
  priority : ℤ
deriving DecidableEq, Repr

/-! ## `EnergyBalancer.get_current_balance` -/

/-- `storage_capacity` of `get_current_balance`:
`sum(s.available_capacity for s in self.storage_units.values())`. -/
def storage_capacity (units : List EnergyStorage) : ℚ :=
  (units.map EnergyStorage.available_capacity).sum

/-- `storage_level` of `get_current_balance`:
`sum(s.current_level for s in self.storage_units.values())`. -/
def storage_level (units : List EnergyStorage) : ℚ :=
  (units.map EnergyStorage.current_level).sum

/-- `storage_percentage` entry of `get_current_balance`:
`storage_level / storage_capacity * 100 if storage_capacity > 0 else 0`. -/
def storage_percentage (units : List EnergyStorage) : ℚ :=
  if storage_capacity units > 0 then
    storage_level units / storage_capacity units * 100
  else 0

/-! ## `EnergyBalancer.forecast_balance`

Timestamps are modelled as integers counting hours; `pd.date_range(start,
periods = h, freq = "H")` starting at `t0` is then `t0, t0+1, ..., t0+h-1`.
The summed production / consumption forecasts are abstract functions of the
timestamp. -/

/-- One row of the forecast DataFrame. -/
structure ForecastRow where
  timestamp : ℤ
  production : ℚ
  consumption : ℚ
  balance : ℚ
deriving DecidableEq, Repr

/-- `horizon_hours = horizon_hours or self.forecast_horizon`: Python's `or`
falls back to the default both when the argument is `None` and when it is
the falsy number `0`. -/
def effectiveHorizon (forecast_horizon : ℕ) (horizon_hours : Option ℕ) : ℕ :=
  match horizon_hours with
  | none => forecast_horizon
  | some n => if n = 0 then forecast_horizon else n

/-- `forecast_balance`: one row per timestamp of
`pd.date_range(start = now, periods = effectiveHorizon, freq = "H")`, with
`production = Σ p.get_forecast(ts)`, `consumption = Σ c.get_forecast(ts)`
abstracted as `prod ts` and `cons ts`. -/
def forecast_balance (prod cons : ℤ → ℚ) (forecast_horizon : ℕ)
    (horizon_hours : Option ℕ) (t0 : ℤ) : List ForecastRow :=
  (List.range (effectiveHorizon forecast_horizon horizon_hours)).map
    fun i : ℕ =>
      { timestamp := t0 + (i : ℤ)
        production := prod (t0 + (i : ℤ))
        consumption := cons (t0 + (i : ℤ))
        balance := prod (t0 + (i : ℤ)) - cons (t0 + (i : ℤ)) }

/-! ## `EnergyBalancer.optimize_storage_allocation` -/

/-- One entry of the `decisions` dictionary. -/
structure StorageDecision where
  id : String
  action : String
  amount : ℚ
  unit : String
deriving DecidableEq, Repr

/-- The sort key `lambda x: (x.priority, -x.state_of_charge)` as a total
preorder: Python compares key tuples lexicographically. -/
def storageKeyLe (x y : EnergyStorage) : Prop :=
  x.priority < y.priority ∨
    (x.priority = y.priority ∧ -x.state_of_charge ≤ -y.state_of_charge)

instance : DecidableRel storageKeyLe := fun x y =>
  inferInstanceAs (Decidable (x.priority < y.priority ∨
    (x.priority = y.priority ∧ -x.state_of_charge ≤ -y.state_of_charge)))

/-- Candidate units of the surplus branch:
`[s for s in self.storage_units.values() if s.available_capacity > 0]`. -/
def surplusCandidates (units : List EnergyStorage) : List EnergyStorage :=
  units.filter fun s => s.available_capacity > 0

/-- Candidate units of the deficit branch:
`[s for s in self.storage_units.values() if s.current_level > 0]`. -/
def deficitCandidates (units : List EnergyStorage) : List EnergyStorage :=
  units.filter fun s => s.current_level > 0

/-- The surplus `for unit in sorted_units` loop: break once
`remaining_surplus <= 0`, else `max_charge = min(available_capacity,
max_charge_rate, remaining_surplus)`, record a charge decision and subtract
from the remainder only when `max_charge > 0`. -/
def surplusWalk : List EnergyStorage → ℚ → List StorageDecision
  | [], _ => []
  | unit :: rest, remaining_surplus =>
    if remaining_surplus ≤ 0 then []
    else
      let max_charge :=
        min unit.available_capacity (min unit.max_charge_rate remaining_surplus)
      if max_charge > 0 then
        { id := unit.id, action := "charge", amount := max_charge
          unit := unit.type.name } ::
          surplusWalk rest (remaining_surplus - max_charge)
      else surplusWalk rest remaining_surplus

/-- The deficit `for unit in sorted_units` loop, mirroring `surplusWalk`
with `current_level`, `max_discharge_rate` and `remaining_deficit`. -/
def deficitWalk : List EnergyStorage → ℚ → List StorageDecision
  | [], _ => []
  | unit :: rest, remaining_deficit =>
    if remaining_deficit ≤ 0 then []
    else
      let max_discharge :=
        min unit.current_level (min unit.max_discharge_rate remaining_deficit)
      if max_discharge > 0 then
        { id := unit.id, action := "discharge", amount := max_discharge
          unit := unit.type.name } ::
          deficitWalk rest (remaining_deficit - max_discharge)
      else deficitWalk rest remaining_deficit

/-- `optimize_storage_allocation`, parametrized by the forecast
`energy_balance = production_forecast - consumption_forecast` for the given
timestamp.  `units` is `self.storage_units.values()` in insertion order. -/
def optimize_storage_allocation (units : List EnergyStorage)
    (energy_balance : ℚ) : List StorageDecision :=
  if energy_balance > 0 then
    surplusWalk (List.insertionSort storageKeyLe (surplusCandidates units))
      energy_balance
  else if energy_balance < 0 then
    deficitWalk (List.insertionSort storageKeyLe (deficitCandidates units))
      |energy_balance|
  else []

/-- Total amount across a list of storage (or shedding) decisions. -/
def decisionsTotal (ds : List StorageDecision) : ℚ :=
  (ds.map StorageDecision.amount).sum

/-! ## `EnergyBalancer.prioritize_loads` and the load-management step of
`execute_balancing_strategy` -/

/-- The sort key `lambda x: (-x.priority, -x.flexibility)` of
`prioritize_loads` as a total preorder (lexicographic tuple comparison). -/
def consumerKeyLe (x y : Consumer) : Prop :=
  -x.priority < -y.priority ∨
    (-x.priority = -y.priority ∧ -x.flexibility ≤ -y.flexibility)

instance : DecidableRel consumerKeyLe := fun x y =>
  inferInstanceAs (Decidable (-x.priority < -y.priority ∨
    (-x.priority = -y.priority ∧ -x.flexibility ≤ -y.flexibility)))

/-- One entry appended to `actions["load_management"]`. -/
structure ShedRecord where
  consumer_id : String
  type : String
  reduction : ℚ
deriving DecidableEq, Repr

/-- The load-shedding loop of `execute_balancing_strategy` fused with the
filter of `prioritize_loads`, walking the sorted consumer list: a consumer
enters `load_priorities` iff `flexible = current_demand * flexibility > 0`
(its stored `flexible_demand` is computed before any shedding, and each
consumer is keyed once in the dict); the loop breaks once
`remaining_deficit <= 0`, takes `reduction = min(flexible_demand,
remaining_deficit)` and, when `reduction > 0`, records it, subtracts it from
the remainder and decrements that consumer's `current_demand` in place.
Returns the updated consumers (in walk order) and the recorded sheds. -/
def shedWalk : List Consumer → ℚ → List Consumer × List ShedRecord
  | [], _ => ([], [])
  | c :: rest, remaining_deficit =>
    if remaining_deficit ≤ 0 then (c :: rest, [])
    else
      let flexible := c.current_demand * c.flexibility
      if flexible > 0 then
        let reduction := min flexible remaining_deficit
        if reduction > 0 then
          let r := shedWalk rest (remaining_deficit - reduction)
          ({ c with current_demand := c.current_demand - reduction } :: r.1,
           { consumer_id := c.id, type := c.type, reduction := reduction }
             :: r.2)
        else
          let r := shedWalk rest remaining_deficit
          (c :: r.1, r.2)
      else
        let r := shedWalk rest remaining_deficit
        (c :: r.1, r.2)

/-- Step 2 of `execute_balancing_strategy`: load management runs only when
`immediate_balance < 0`, over the consumers sorted by
`prioritize_loads`'s key, with `remaining_deficit = abs(immediate_balance)`. -/
def load_management (consumers : List Consumer) (immediate_balance : ℚ) :
    List Consumer × List ShedRecord :=
  if immediate_balance < 0 then
    shedWalk (List.insertionSort consumerKeyLe consumers) |immediate_balance|
  else (consumers, [])

/-- Total reduction across the recorded sheds. -/
def shedTotal (rs : List ShedRecord) : ℚ :=
  (rs.map ShedRecord.reduction).sum

/-! ## The grid-exchange step of `execute_balancing_strategy` -/

/-- One entry appended to `actions["grid_exchange"]`. -/
structure GridExchange where
  connected_grid : String
  direction : String
  amount : ℚ
deriving DecidableEq, Repr

/-- The `for connected_grid in self.connected_microgrids` loop: with a
running `immediate_balance`, a peer receives an export of
`min(10, immediate_balance - 20)` when `immediate_balance > 20` (subtracted
from the running balance), provides an import of
`min(10, abs(immediate_balance) - 10)` when `immediate_balance < -10`
(added back), and is skipped otherwise.  Returns the recorded exchanges and
the final running balance. -/
def gridExchangeWalk : List String → ℚ → List GridExchange × ℚ
  | [], immediate_balance => ([], immediate_balance)
  | connected_grid :: rest, immediate_balance =>
    if immediate_balance > 20 then
      let exchange_amount := min 10 (immediate_balance - 20)
      let r := gridExchangeWalk rest (immediate_balance - exchange_amount)
      ({ connected_grid := connected_grid, direction := "export"
         amount := exchange_amount } :: r.1, r.2)
    else if immediate_balance < -10 then
      let exchange_amount := min 10 (|immediate_balance| - 10)
      let r := gridExchangeWalk rest (immediate_balance + exchange_amount)
      ({ connected_grid := connected_grid, direction := "import"
         amount := exchange_amount } :: r.1, r.2)
    else
      gridExchangeWalk rest immediate_balance

/-- The grid-exchange entries of one `execute_balancing_strategy` call,
seeded from `current_balance["balance"]`. -/
def grid_exchange (connected_microgrids : List String)
    (immediate_balance : ℚ) : List GridExchange :=
  (gridExchangeWalk connected_microgrids immediate_balance).1

/-! ## Claims about the storage primitives (C2, C4) -/

/-- A storage unit with `capacity = 0`: the log line of `charge` /
`discharge` evaluates `state_of_charge` and divides by zero. -/
def zeroCapacityUnit : EnergyStorage :=
  { id := "z", type := .BATTERY, capacity := 0, current_level := 0
    max_charge_rate := 5, max_discharge_rate := 5, efficiency := 1
    priority := 1, location := (0, 0), temperature := 25 }

/-- C4 counterexample: `charge` / `discharge` are not raise-free — on a unit
with `capacity = 0` both raise `ZeroDivisionError` (the logging f-string
evaluates `state_of_charge = current_level / capacity * 100`). -/
theorem claim_C4_counterexample :
    zeroCapacityUnit.chargeRun 5 =
      .error "ZeroDivisionError: float division by zero" ∧
    zeroCapacityUnit.dischargeRun 5 =
      .error "ZeroDivisionError: float division by zero" := by
  constructor <;>
    simp [EnergyStorage.chargeRun, EnergyStorage.dischargeRun, zeroCapacityUnit]

/-- C4 (amended): for every storage unit whose `capacity` is nonzero and
every amount, `charge(amount)` returns normally, increases `current_level`
by exactly `min(amount, available_capacity before the call)` and returns
that applied amount; `discharge(amount)` symmetrically decreases
`current_level` by `min(amount, current_level before the call)` and returns
it. -/
theorem claim_C4_charge_discharge_exact (s : EnergyStorage) (amount : ℚ)
    (h : s.capacity ≠ 0) :
    s.chargeRun amount =
      .ok ({ s with current_level :=
              s.current_level + min amount s.available_capacity },
           min amount s.available_capacity) ∧
    s.dischargeRun amount =
      .ok ({ s with current_level :=
              s.current_level - min amount s.current_level },
           min amount s.current_level) := by
  constructor <;>
    simp [EnergyStorage.chargeRun, EnergyStorage.dischargeRun,
      EnergyStorage.charge, EnergyStorage.discharge, h]

/-- A well-formed battery used to instantiate hypotheses of the storage
claims at concrete inputs. -/
def batteryHalfFull : EnergyStorage :=
  { id := "battery-01", type := .BATTERY, capacity := 100, current_level := 50
    max_charge_rate := 20, max_discharge_rate := 100, efficiency := 95/100
    priority := 1, location := (0, 0), temperature := 25 }

/-- Witness for C4's theorem at `batteryHalfFull`, `amount = 30`:
`min 30 50 = 30` is applied on both sides. -/
theorem claim_C4_witness :
    batteryHalfFull.chargeRun 30 =
      .ok ({ batteryHalfFull with current_level := 80 }, 30) ∧
    batteryHalfFull.dischargeRun 30 =
      .ok ({ batteryHalfFull with current_level := 20 }, 30) := by
  have h := claim_C4_charge_discharge_exact batteryHalfFull 30
    (by norm_num [batteryHalfFull])
  refine ⟨h.1.trans ?_, h.2.trans ?_⟩ <;>
    norm_num [batteryHalfFull, EnergyStorage.available_capacity, min_def]

/-- A battery satisfying the level invariant, used to refute C2 as stated:
calling `charge(-5)` drives `current_level` to `-2 < 0`. -/
def invariantBattery : EnergyStorage :=
  { id := "b", type := .BATTERY, capacity := 10, current_level := 3
    max_charge_rate := 5, max_discharge_rate := 5, efficiency := 1
    priority := 1, location := (0, 0), temperature := 25 }

/-- C2 counterexample: the invariant is not preserved under arbitrary float
amounts — a negative charge amount is clamped by
`min(amount, available_capacity)` only from above, so `charge(-5)` on a unit
at level 3 of 10 leaves `current_level = -2`. -/
theorem claim_C2_counterexample :
    (0 ≤ invariantBattery.current_level ∧
      invariantBattery.current_level ≤ invariantBattery.capacity) ∧
    ¬ 0 ≤ (invariantBattery.applyOps [.charge (-5)]).current_level := by
  norm_num [invariantBattery, EnergyStorage.applyOps, EnergyStorage.applyOp,
    EnergyStorage.charge, EnergyStorage.available_capacity, min_def]

/-- One nonnegative-amount call preserves `capacity` and the level
invariant. -/
theorem applyOp_invariant (s : EnergyStorage) (op : StorageOp)
    (hop : 0 ≤ op.amount)
    (h0 : 0 ≤ s.current_level) (h1 : s.current_level ≤ s.capacity) :
    (s.applyOp op).capacity = s.capacity ∧
      0 ≤ (s.applyOp op).current_level ∧
      (s.applyOp op).current_level ≤ (s.applyOp op).capacity := by
  cases op with
  | charge a =>
    simp only [StorageOp.amount] at hop
    have havail : 0 ≤ s.capacity - s.current_level := by linarith
    have hmin0 : 0 ≤ min a (s.capacity - s.current_level) := le_min hop havail
    have hmin1 : min a (s.capacity - s.current_level) ≤
        s.capacity - s.current_level := min_le_right _ _
    refine ⟨rfl, ?_, ?_⟩ <;>
      · simp only [EnergyStorage.applyOp, EnergyStorage.charge,
          EnergyStorage.available_capacity]
        linarith
  | discharge a =>
    simp only [StorageOp.amount] at hop
    have hmin0 : 0 ≤ min a s.current_level := le_min hop h0
    have hmin1 : min a s.current_level ≤ s.current_level := min_le_right _ _
    refine ⟨rfl, ?_, ?_⟩ <;>
      · simp only [EnergyStorage.applyOp, EnergyStorage.discharge]
        linarith

/-- C2 (amended): for every storage unit initially satisfying
`0 ≤ current_level ≤ capacity`, after any sequence of `charge` / `discharge`
calls with nonnegative amounts the invariant `0 ≤ current_level ≤ capacity`
still holds — each mutation is clamped, never rejected. -/
theorem claim_C2_invariant (s : EnergyStorage) (ops : List StorageOp)
    (hops : ∀ op ∈ ops, 0 ≤ op.amount)
    (h0 : 0 ≤ s.current_level) (h1 : s.current_level ≤ s.capacity) :
    0 ≤ (s.applyOps ops).current_level ∧
      (s.applyOps ops).current_level ≤ (s.applyOps ops).capacity := by
  induction ops generalizing s with
  | nil => exact ⟨h0, h1⟩
  | cons op rest ih =>
    have hstep := applyOp_invariant s op (hops op (List.mem_cons_self _ _)) h0 h1
    have hrest : ∀ o ∈ rest, 0 ≤ o.amount := fun o ho =>
      hops o (List.mem_cons_of_mem _ ho)
    have : s.applyOps (op :: rest) = (s.applyOp op).applyOps rest := rfl
    rw [this]
    exact ih _ hrest hstep.2.1 hstep.2.2

/-- Witness for C2's theorem: `batteryHalfFull` run through a nonnegative
charge and an over-large discharge keeps the invariant. -/
theorem claim_C2_witness :
    0 ≤ (batteryHalfFull.applyOps
          [.charge 5, .discharge 100]).current_level ∧
    (batteryHalfFull.applyOps [.charge 5, .discharge 100]).current_level ≤
      (batteryHalfFull.applyOps [.charge 5, .discharge 100]).capacity := by
  refine claim_C2_invariant batteryHalfFull [.charge 5, .discharge 100]
    ?_ ?_ ?_
  · intro op hop
    rcases List.mem_cons.1 hop with h | h
    · subst h; norm_num [StorageOp.amount]
    · rcases List.mem_cons.1 h with h | h
      · subst h; norm_num [StorageOp.amount]
      · simp at h
  · norm_num [batteryHalfFull]
  · norm_num [batteryHalfFull]

/-! ## Claim about `get_current_balance` (C8) -/

/-- C8: `get_current_balance` reports
`storage_percentage = storage_level / storage_capacity * 100` when the
summed available storage capacity is positive, and reports 0 (no division
fault) whenever the summed capacity is 0 — in particular for an empty
storage mapping. -/
theorem claim_C8_storage_percentage (units : List EnergyStorage) :
    (0 < storage_capacity units →
      storage_percentage units =
        storage_level units / storage_capacity units * 100) ∧
    (storage_capacity units = 0 → storage_percentage units = 0) ∧
    storage_percentage ([] : List EnergyStorage) = 0 := by
  refine ⟨fun h => ?_, fun h => ?_, ?_⟩
  · rw [storage_percentage, if_pos h]
  · rw [storage_percentage, if_neg (by rw [h]; exact lt_irrefl 0)]
  · rfl

/-- Witness for C8 at a one-unit list with positive available capacity and
at the empty list. -/
theorem claim_C8_witness :
    storage_percentage [batteryHalfFull] =
      storage_level [batteryHalfFull] / storage_capacity [batteryHalfFull]
        * 100 ∧
    storage_percentage ([] : List EnergyStorage) = 0 :=
  ⟨(claim_C8_storage_percentage [batteryHalfFull]).1
      (by norm_num [storage_capacity, batteryHalfFull,
        EnergyStorage.available_capacity]),
   (claim_C8_storage_percentage []).2.2⟩

/-! ## Claim about `forecast_balance` (C3) -/

/-- C3 counterexample: `forecast_balance(0)` does not return an empty
sequence — `horizon_hours or self.forecast_horizon` treats the argument 0 as
falsy and falls back to the default horizon, here 24 rows. -/
theorem claim_C3_counterexample :
    (forecast_balance (fun _ => 0) (fun _ => 0) 24 (some 0) 0).length = 24 ∧
    (24 : ℕ) ≠ 0 := by
  constructor
  · simp [forecast_balance, effectiveHorizon]
  · norm_num

/-- C3 (amended): `forecast_balance(0)` falls back to the instance's default
horizon (it coincides with `forecast_balance(None)`, which yields
`forecast_horizon` rows); for every n ≥ 1, `forecast_balance(n)` returns
exactly n entries whose timestamps are strictly increasing at hourly
spacing, starting at "now". -/
theorem claim_C3_forecast_rows (prod cons : ℤ → ℚ) (fh : ℕ) (t0 : ℤ)
    (n : ℕ) (hn : n ≠ 0) :
    (forecast_balance prod cons fh (some n) t0).length = n ∧
    (forecast_balance prod cons fh (some n) t0).map ForecastRow.timestamp =
      (List.range n).map (fun i : ℕ => t0 + (i : ℤ)) ∧
    List.Chain' (fun a b : ℤ => b = a + 1)
      ((forecast_balance prod cons fh (some n) t0).map
        ForecastRow.timestamp) ∧
    forecast_balance prod cons fh (some 0) t0 =
      forecast_balance prod cons fh none t0 ∧
    (forecast_balance prod cons fh none t0).length = fh := by
  have heff : effectiveHorizon fh (some n) = n := by
    simp only [effectiveHorizon]
    exact if_neg hn
  have hlen : ∀ h : Option ℕ,
      (forecast_balance prod cons fh h t0).length = effectiveHorizon fh h :=
    fun h => by
      rw [forecast_balance, List.length_map, List.length_range]
  have hts : (forecast_balance prod cons fh (some n) t0).map
      ForecastRow.timestamp = (List.range n).map (fun i : ℕ => t0 + (i : ℤ)) := by
    rw [forecast_balance, heff, List.map_map]
    rfl
  refine ⟨(hlen (some n)).trans heff, hts, ?_, ?_, hlen none⟩
  · rw [hts, List.chain'_map]
    cases n with
    | zero => simp
    | succ m =>
      rw [List.chain'_range_succ]
      intro i _
      push_cast
      ring
  · rfl

/-- Witness for C3's theorem at n = 3: three rows, timestamps
`t0, t0+1, t0+2`. -/
theorem claim_C3_witness :
    (forecast_balance (fun _ => 0) (fun _ => 0) 24 (some 3) 7).length = 3 ∧
    (forecast_balance (fun _ => 0) (fun _ => 0) 24 (some 3) 7).map
      ForecastRow.timestamp =
      (List.range 3).map (fun i : ℕ => (7 : ℤ) + (i : ℤ)) :=
  have h := claim_C3_forecast_rows (fun _ => 0) (fun _ => 0) 24 7 3
    (by norm_num)
  ⟨h.1, h.2.1⟩

/-! ## Claims about `optimize_storage_allocation` (C1, C9) -/

/-- Every decision recorded by the surplus walk is positive, and their total
never exceeds the (nonnegative part of the) remaining surplus. -/
theorem surplusWalk_bounds (l : List EnergyStorage) (rem : ℚ) :
    (∀ d ∈ surplusWalk l rem, 0 < d.amount) ∧
      decisionsTotal (surplusWalk l rem) ≤ max rem 0 := by
  induction l generalizing rem with
  | nil =>
    simp [surplusWalk, decisionsTotal, le_max_right]
  | cons u rest ih =>
    by_cases hrem : rem ≤ 0
    · simp [surplusWalk, hrem, decisionsTotal, le_max_right]
    · push_neg at hrem
      by_cases hamt :
          0 < min u.available_capacity (min u.max_charge_rate rem)
      · have hle : min u.available_capacity (min u.max_charge_rate rem)
            ≤ rem := le_trans (min_le_right _ _) (min_le_right _ _)
        have ihr := ih (rem - min u.available_capacity
          (min u.max_charge_rate rem))
        rw [surplusWalk, if_neg (not_le.2 hrem), if_pos hamt]
        constructor
        · intro d hd
          rcases List.mem_cons.1 hd with h | h
          · subst h; exact hamt
          · exact ihr.1 d h
        · rw [decisionsTotal, List.map_cons, List.sum_cons]
          have : decisionsTotal (surplusWalk rest (rem - min
              u.available_capacity (min u.max_charge_rate rem))) ≤
              rem - min u.available_capacity (min u.max_charge_rate rem) := by
            refine ihr.2.trans ?_
            exact max_le (le_refl _) (by linarith)
          have hmax : max rem 0 = rem := max_eq_left (le_of_lt hrem)
          rw [hmax]
          have := ihr.2
          simp only [decisionsTotal] at this ⊢
          linarith [max_le (le_refl (rem - min u.available_capacity
            (min u.max_charge_rate rem))) (sub_nonneg.2 hle)]
      · rw [surplusWalk, if_neg (not_le.2 hrem), if_neg hamt]
        exact ih rem

/-- Every decision recorded by the deficit walk is positive, and their total
never exceeds the (nonnegative part of the) remaining deficit. -/
theorem deficitWalk_bounds (l : List EnergyStorage) (rem : ℚ) :
    (∀ d ∈ deficitWalk l rem, 0 < d.amount) ∧
      decisionsTotal (deficitWalk l rem) ≤ max rem 0 := by
  induction l generalizing rem with
  | nil =>
    simp [deficitWalk, decisionsTotal, le_max_right]
  | cons u rest ih =>
    by_cases hrem : rem ≤ 0
    · simp [deficitWalk, hrem, decisionsTotal, le_max_right]
    · push_neg at hrem
      by_cases hamt :
          0 < min u.current_level (min u.max_discharge_rate rem)
      · have hle : min u.current_level (min u.max_discharge_rate rem)
            ≤ rem := le_trans (min_le_right _ _) (min_le_right _ _)
        have ihr := ih (rem - min u.current_level
          (min u.max_discharge_rate rem))
        rw [deficitWalk, if_neg (not_le.2 hrem), if_pos hamt]
        constructor
        · intro d hd
          rcases List.mem_cons.1 hd with h | h
          · subst h; exact hamt
          · exact ihr.1 d h
        · rw [decisionsTotal, List.map_cons, List.sum_cons]
          have hmax : max rem 0 = rem := max_eq_left (le_of_lt hrem)
          rw [hmax]
          have := ihr.2
          simp only [decisionsTotal] at this ⊢
          linarith [max_le (le_refl (rem - min u.current_level
            (min u.max_discharge_rate rem))) (sub_nonneg.2 hle)]
      · rw [deficitWalk, if_neg (not_le.2 hrem), if_neg hamt]
        exact ih rem

/-- C1: with a positive forecast balance, `optimize_storage_allocation`
walks exactly the units with `available_capacity > 0` sorted by
`(priority, -state_of_charge)`; every recorded decision has a positive
amount and the total decided never exceeds the initial surplus; the deficit
branch mirrors this over units with `current_level > 0`, bounded by the
initial deficit `abs(energy_balance)`. -/
theorem claim_C1_allocation_bounds (units : List EnergyStorage)
    (energy_balance : ℚ) :
    (0 < energy_balance →
      optimize_storage_allocation units energy_balance =
        surplusWalk
          (List.insertionSort storageKeyLe (surplusCandidates units))
          energy_balance ∧
      (∀ d ∈ optimize_storage_allocation units energy_balance,
        0 < d.amount) ∧
      decisionsTotal (optimize_storage_allocation units energy_balance) ≤
        energy_balance) ∧
    (energy_balance < 0 →
      optimize_storage_allocation units energy_balance =
        deficitWalk
          (List.insertionSort storageKeyLe (deficitCandidates units))
          |energy_balance| ∧
      (∀ d ∈ optimize_storage_allocation units energy_balance,
        0 < d.amount) ∧
      decisionsTotal (optimize_storage_allocation units energy_balance) ≤
        |energy_balance|) := by
  constructor
  · intro hpos
    have heq : optimize_storage_allocation units energy_balance =
        surplusWalk
          (List.insertionSort storageKeyLe (surplusCandidates units))
          energy_balance := by
      rw [optimize_storage_allocation, if_pos hpos]
    have hb := surplusWalk_bounds
      (List.insertionSort storageKeyLe (surplusCandidates units))
      energy_balance
    refine ⟨heq, ?_, ?_⟩
    · rw [heq]; exact hb.1
    · rw [heq]
      exact hb.2.trans (le_of_eq (max_eq_left (le_of_lt hpos)))
  · intro hneg
    have heq : optimize_storage_allocation units energy_balance =
        deficitWalk
          (List.insertionSort storageKeyLe (deficitCandidates units))
          |energy_balance| := by
      rw [optimize_storage_allocation, if_neg (not_lt.2 (le_of_lt hneg)),
        if_pos hneg]
    have hb := deficitWalk_bounds
      (List.insertionSort storageKeyLe (deficitCandidates units))
      |energy_balance|
    refine ⟨heq, ?_, ?_⟩
    · rw [heq]; exact hb.1
    · rw [heq]
      exact hb.2.trans (le_of_eq (max_eq_left (abs_nonneg _)))

/-- Witness for C1 at the spec's scenario: one battery (capacity 100, level
50, charge rate 20) against a surplus of 30 — the single decision totals 20
≤ 30 — and the same battery against a deficit of 120. -/
theorem claim_C1_witness :
    decisionsTotal (optimize_storage_allocation [batteryHalfFull] 30) ≤ 30 ∧
    decisionsTotal (optimize_storage_allocation [batteryHalfFull] (-120)) ≤
      |(-120 : ℚ)| :=
  ⟨((claim_C1_allocation_bounds [batteryHalfFull] 30).1
      (by norm_num)).2.2,
   ((claim_C1_allocation_bounds [batteryHalfFull] (-120)).2
      (by norm_num)).2.2⟩

/-- C9: under the level invariant, every storage unit the surplus branch
keeps (`available_capacity > 0`) and every unit the deficit branch keeps
(`current_level > 0`) has `capacity > 0`, so the division inside
`state_of_charge`, evaluated by the sort key of
`optimize_storage_allocation`, never has a zero denominator. -/
theorem claim_C9_sort_key_safe (units : List EnergyStorage)
    (hinv : ∀ s ∈ units, 0 ≤ s.current_level ∧ s.current_level ≤ s.capacity) :
    (∀ s ∈ surplusCandidates units, 0 < s.capacity) ∧
    (∀ s ∈ deficitCandidates units, 0 < s.capacity) := by
  constructor
  · intro s hs
    rw [surplusCandidates, List.mem_filter] at hs
    have havail : 0 < s.available_capacity := by
      have := hs.2
      simpa using this
    have h0 := (hinv s hs.1).1
    rw [EnergyStorage.available_capacity] at havail
    linarith
  · intro s hs
    rw [deficitCandidates, List.mem_filter] at hs
    have hlev : 0 < s.current_level := by
      have := hs.2
      simpa using this
    have h1 := (hinv s hs.1).2
    linarith

/-- Witness for C9 at a one-unit list satisfying the invariant. -/
theorem claim_C9_witness :
    (∀ s ∈ surplusCandidates [batteryHalfFull], 0 < s.capacity) ∧
    (∀ s ∈ deficitCandidates [batteryHalfFull], 0 < s.capacity) :=
  claim_C9_sort_key_safe [batteryHalfFull]
    (by intro s hs; simp at hs; subst hs; norm_num [batteryHalfFull])

/-! ## Claims about the load-management step (C5, C7) -/

/-- Unfolding of `shedWalk` when the walk breaks (`remaining_deficit ≤ 0`). -/
theorem shedWalk_stop (c : Consumer) (rest : List Consumer) (rem : ℚ)
    (h : rem ≤ 0) : shedWalk (c :: rest) rem = (c :: rest, []) := by
  simp [shedWalk, h]

/-- Unfolding of `shedWalk` on a consumer with positive flexible demand:
it is shed by `min(flexible, remaining)`. -/
theorem shedWalk_shed (c : Consumer) (rest : List Consumer) (rem : ℚ)
    (h : 0 < rem) (hf : 0 < c.current_demand * c.flexibility) :
    shedWalk (c :: rest) rem =
      ({ c with current_demand :=
          c.current_demand - min (c.current_demand * c.flexibility) rem } ::
        (shedWalk rest
          (rem - min (c.current_demand * c.flexibility) rem)).1,
       { consumer_id := c.id, type := c.type
         reduction := min (c.current_demand * c.flexibility) rem } ::
        (shedWalk rest
          (rem - min (c.current_demand * c.flexibility) rem)).2) := by
  have hred : 0 < min (c.current_demand * c.flexibility) rem := lt_min hf h
  simp [shedWalk, not_le.2 h, hf, hred]

/-- Unfolding of `shedWalk` on a consumer with no positive flexible demand:
it is skipped, the remainder unchanged. -/
theorem shedWalk_skip (c : Consumer) (rest : List Consumer) (rem : ℚ)
    (h : 0 < rem) (hf : ¬ 0 < c.current_demand * c.flexibility) :
    shedWalk (c :: rest) rem =
      (c :: (shedWalk rest rem).1, (shedWalk rest rem).2) := by
  simp [shedWalk, not_le.2 h, hf]

/-- Core bound for the shedding walk: with demands nonnegative and
flexibilities in `[0,1]`, no resulting demand is negative and the total
reduction is at most the (nonnegative part of the) deficit. -/
theorem shedWalk_bounds (l : List Consumer) (rem : ℚ)
    (hc : ∀ c ∈ l, 0 ≤ c.current_demand ∧
      0 ≤ c.flexibility ∧ c.flexibility ≤ 1) :
    (∀ c ∈ (shedWalk l rem).1, 0 ≤ c.current_demand) ∧
      shedTotal (shedWalk l rem).2 ≤ max rem 0 := by
  induction l generalizing rem with
  | nil =>
    simp [shedWalk, shedTotal, le_max_right]
  | cons c rest ih =>
    have hch := hc c (List.mem_cons_self _ _)
    have hcr : ∀ x ∈ rest, 0 ≤ x.current_demand ∧
        0 ≤ x.flexibility ∧ x.flexibility ≤ 1 :=
      fun x hx => hc x (List.mem_cons_of_mem _ hx)
    by_cases hrem : rem ≤ 0
    · rw [shedWalk_stop c rest rem hrem]
      refine ⟨fun x hx => (hc x hx).1, ?_⟩
      simp [shedTotal, le_max_right]
    · push_neg at hrem
      by_cases hf : 0 < c.current_demand * c.flexibility
      · rw [shedWalk_shed c rest rem hrem hf]
        have hflex_le : c.current_demand * c.flexibility ≤
            c.current_demand :=
          mul_le_of_le_one_right hch.1 hch.2.2
        have hred_le_flex : min (c.current_demand * c.flexibility) rem ≤
            c.current_demand * c.flexibility := min_le_left _ _
        have hred_le_rem : min (c.current_demand * c.flexibility) rem ≤
            rem := min_le_right _ _
        have ihr := ih (rem - min (c.current_demand * c.flexibility) rem) hcr
        constructor
        · intro x hx
          rcases List.mem_cons.1 hx with h | h
          · subst h
            simp only
            linarith
          · exact ihr.1 x h
        · simp only [shedTotal, List.map_cons, List.sum_cons]
          have hmax : max rem 0 = rem := max_eq_left (le_of_lt hrem)
          rw [hmax]
          have h2 := ihr.2
          simp only [shedTotal] at h2
          have hmax2 : max (rem - min (c.current_demand * c.flexibility) rem)
              0 = rem - min (c.current_demand * c.flexibility) rem :=
            max_eq_left (by linarith)
          rw [hmax2] at h2
          linarith
      · rw [shedWalk_skip c rest rem hrem hf]
        have ihr := ih rem hcr
        constructor
        · intro x hx
          rcases List.mem_cons.1 hx with h | h
          · subst h; exact hch.1
          · exact ihr.1 x h
        · exact ihr.2

/-- C5: whenever load shedding runs (current balance negative), assuming
every consumer has `current_demand ≥ 0` and `flexibility ∈ [0,1]`, no
consumer's `current_demand` is reduced below zero and the total reduction
never exceeds the deficit `abs(immediate_balance)`. -/
theorem claim_C5_load_shedding (consumers : List Consumer)
    (immediate_balance : ℚ) (hb : immediate_balance < 0)
    (hc : ∀ c ∈ consumers, 0 ≤ c.current_demand ∧
      0 ≤ c.flexibility ∧ c.flexibility ≤ 1) :
    (∀ c ∈ (load_management consumers immediate_balance).1,
      0 ≤ c.current_demand) ∧
    shedTotal (load_management consumers immediate_balance).2 ≤
      |immediate_balance| := by
  rw [load_management, if_pos hb]
  have hc' : ∀ c ∈ List.insertionSort consumerKeyLe consumers,
      0 ≤ c.current_demand ∧ 0 ≤ c.flexibility ∧ c.flexibility ≤ 1 :=
    fun c hcm =>
      hc c ((List.perm_insertionSort consumerKeyLe consumers).subset hcm)
  have h := shedWalk_bounds (List.insertionSort consumerKeyLe consumers)
    |immediate_balance| hc'
  exact ⟨h.1, h.2.trans (le_of_eq (max_eq_left (abs_nonneg _)))⟩

/-- The priority-1, flexibility-0.5, demand-10 consumer of the spec's
shedding scenario. -/
def residentialConsumer : Consumer :=
  { id := "c1", type := "residential", peak_demand := 10
    current_demand := 10, flexibility := 1/2, priority := 1 }

/-- The priority-2, flexibility-1.0, demand-10 consumer of the spec's
shedding scenario. -/
def industrialConsumer : Consumer :=
  { id := "c2", type := "industrial", peak_demand := 10
    current_demand := 10, flexibility := 1, priority := 2 }

/-- Witness for C5's theorem at the two-consumer scenario with balance -12. -/
theorem claim_C5_witness :
    (∀ c ∈ (load_management [residentialConsumer, industrialConsumer]
        (-12)).1, 0 ≤ c.current_demand) ∧
    shedTotal (load_management [residentialConsumer, industrialConsumer]
        (-12)).2 ≤ |(-12 : ℚ)| :=
  claim_C5_load_shedding [residentialConsumer, industrialConsumer] (-12)
    (by norm_num)
    (by
      intro c hcm
      rcases List.mem_cons.1 hcm with h | h
      · subst h; norm_num [residentialConsumer]
      · rcases List.mem_cons.1 h with h | h
        · subst h; norm_num [industrialConsumer]
        · simp at h)

/-- C7: on exactly the spec's scenario (deficit 12), the priority-2 consumer
is shed first by `min(10*1.0, 12) = 10`, then the priority-1 consumer by
`min(10*0.5, 2) = 2`, leaving demands 0 and 8 respectively. -/
theorem claim_C7_scenario :
    (load_management [residentialConsumer, industrialConsumer] (-12)).2 =
      [{ consumer_id := "c2", type := "industrial", reduction := 10 },
       { consumer_id := "c1", type := "residential", reduction := 2 }] ∧
    (load_management [residentialConsumer, industrialConsumer] (-12)).1 =
      [{ industrialConsumer with current_demand := 0 },
       { residentialConsumer with current_demand := 8 }] := by
  norm_num [load_management, shedWalk, List.insertionSort,
    List.orderedInsert, consumerKeyLe, residentialConsumer,
    industrialConsumer, abs, min_def]

/-! ## Claims about the grid-exchange step (C6, C10) -/

/-- Every exchange amount recorded by the walk is at most 10. -/
theorem gridExchangeWalk_amount_le (grids : List String) (b : ℚ) :
    ∀ e ∈ (gridExchangeWalk grids b).1, e.amount ≤ 10 := by
  induction grids generalizing b with
  | nil => simp [gridExchangeWalk]
  | cons g rest ih =>
    by_cases h1 : b > 20
    · simp only [gridExchangeWalk, if_pos h1]
      intro e he
      rcases List.mem_cons.1 he with h | h
      · subst h; exact min_le_left _ _
      · exact ih _ e h
    · by_cases h2 : b < -10
      · simp only [gridExchangeWalk, if_neg h1, if_pos h2]
        intro e he
        rcases List.mem_cons.1 he with h | h
        · subst h; exact min_le_left _ _
        · exact ih _ e h
      · simp only [gridExchangeWalk, if_neg h1, if_neg h2]
        exact ih b

/-- C6: peers are visited in list order against a running balance — a peer
seen at `immediate_balance > 20` receives an export of
`min(10, immediate_balance - 20)` and the rest of the peers are decided at
the reduced balance; a peer seen at `immediate_balance < -10` provides an import
of `min(10, abs(immediate_balance) - 10)` added back for the rest;
every recorded per-peer amount is ≤ 10. -/
theorem claim_C6_grid_exchange (connected : List String) (b : ℚ)
    (g : String) (rest : List String) :
    (∀ e ∈ grid_exchange connected b, e.amount ≤ 10) ∧
    (20 < b → grid_exchange (g :: rest) b =
      { connected_grid := g, direction := "export"
        amount := min 10 (b - 20) } ::
        grid_exchange rest (b - min 10 (b - 20))) ∧
    (b < -10 → grid_exchange (g :: rest) b =
      { connected_grid := g, direction := "import"
        amount := min 10 (|b| - 10) } ::
        grid_exchange rest (b + min 10 (|b| - 10))) := by
  refine ⟨gridExchangeWalk_amount_le connected b, fun h => ?_, fun h => ?_⟩
  · simp only [grid_exchange, gridExchangeWalk, if_pos h]
  · have h1 : ¬ b > 20 := by linarith
    simp only [grid_exchange, gridExchangeWalk, if_neg h1, if_pos h]

/-- Witness for C6's theorem with peers `["a", "b"]` at balance 35 (export
path taken, first amount `min 10 15 = 10`). -/
theorem claim_C6_witness :
    (∀ e ∈ grid_exchange ["a", "b"] 35, e.amount ≤ 10) ∧
    grid_exchange ["a"] 35 =
      { connected_grid := "a", direction := "export"
        amount := min 10 (35 - 20) } ::
        grid_exchange [] (35 - min 10 ((35 : ℚ) - 20)) :=
  ⟨(claim_C6_grid_exchange ["a", "b"] 35 "a" []).1,
   (claim_C6_grid_exchange ["a"] 35 "a" []).2.1 (by norm_num)⟩

/-- Once the running balance is at least 20 every visited peer is either an
export (the balance stays ≥ 20 afterwards) or skipped, so all entries are
exports. -/
theorem gridExchangeWalk_export_phase (grids : List String) (b : ℚ)
    (hb : 20 ≤ b) :
    ∀ e ∈ (gridExchangeWalk grids b).1, e.direction = "export" := by
  induction grids generalizing b with
  | nil => simp [gridExchangeWalk]
  | cons g rest ih =>
    by_cases h1 : b > 20
    · simp only [gridExchangeWalk, if_pos h1]
      intro e he
      rcases List.mem_cons.1 he with h | h
      · subst h; rfl
      · refine ih (b - min 10 (b - 20)) ?_ e h
        have : min 10 (b - 20) ≤ b - 20 := min_le_right _ _
        linarith
    · have h2 : ¬ b < -10 := by linarith
      simp only [gridExchangeWalk, if_neg h1, if_neg h2]
      exact ih b hb

/-- Once the running balance is at most -10 every visited peer is either an import
(the balance stays ≤ -10 afterwards) or skipped, so every entry is an import. -/
theorem gridExchangeWalk_import_phase (grids : List String) (b : ℚ)
    (hb : b ≤ -10) :
    ∀ e ∈ (gridExchangeWalk grids b).1, e.direction = "import" := by
  induction grids generalizing b with
  | nil => simp [gridExchangeWalk]
  | cons g rest ih =>
    have h1 : ¬ b > 20 := by linarith
    by_cases h2 : b < -10
    · simp only [gridExchangeWalk, if_neg h1, if_pos h2]
      intro e he
      rcases List.mem_cons.1 he with h | h
      · subst h; rfl
      · refine ih (b + min 10 (|b| - 10)) ?_ e h
        have habs : |b| = -b := abs_of_neg (by linarith)
        rw [habs]
        have : min 10 (-b - 10) ≤ -b - 10 := min_le_right _ _
        linarith
    · simp only [gridExchangeWalk, if_neg h1, if_neg h2]
      exact ih b hb

/-- A balance inside `[-10, 20]` never moves, so no exchange is recorded. -/
theorem gridExchangeWalk_idle (grids : List String) (b : ℚ)
    (h0 : -10 ≤ b) (h1 : b ≤ 20) : (gridExchangeWalk grids b).1 = [] := by
  induction grids with
  | nil => rfl
  | cons g rest ih =>
    have hn1 : ¬ b > 20 := by linarith
    have hn2 : ¬ b < -10 := by linarith
    simp only [gridExchangeWalk, if_neg hn1, if_neg hn2]
    exact ih

/-- C10: within a single call, all grid-exchange entries share one
direction — after an export the running balance never drops below 20 and
after an import it never rises above -10, so the direction cannot flip. -/
theorem claim_C10_direction_uniform (grids : List String) (b : ℚ) :
    (∀ e ∈ grid_exchange grids b, e.direction = "export") ∨
    (∀ e ∈ grid_exchange grids b, e.direction = "import") := by
  rcases le_or_lt 20 b with h | h
  · exact Or.inl (gridExchangeWalk_export_phase grids b h)
  · rcases le_or_lt b (-10) with h2 | h2
    · exact Or.inr (gridExchangeWalk_import_phase grids b h2)
    · left
      rw [grid_exchange,
        gridExchangeWalk_idle grids b (le_of_lt h2) (le_of_lt h)]
      intro e he
      simp at he

/-- Witness for C10 at peers `["a", "b"]`, balance 35: the entry list is
nonempty and uniformly directed. -/
theorem claim_C10_witness :
    ((∀ e ∈ grid_exchange ["a", "b"] 35, e.direction = "export") ∨
      (∀ e ∈ grid_exchange ["a", "b"] 35, e.direction = "import")) ∧
    grid_exchange ["a", "b"] 35 ≠ [] :=
  ⟨claim_C10_direction_uniform ["a", "b"] 35, by
    have h : grid_exchange ["a", "b"] 35 =
        [{ connected_grid := "a", direction := "export", amount := 10 },
         { connected_grid := "b", direction := "export", amount := 5 }] := by
      norm_num [grid_exchange, gridExchangeWalk, min_def]
    rw [h]
    exact List.cons_ne_nil _ _⟩

end ResiliaGrid
